import Mathlib

/-!
Verification of the SeeDream image-generation pipeline
(`src/services/seedream.ts`).

The TypeScript source is shallowly embedded: pure computations become Lean
functions, the stateful base64 cache becomes explicit state passing over a
`Cache` value, external collaborators (Node's filesystem, `Buffer` base64
encoding, `path` routines, the network) become function parameters, the
cooperative event-loop concurrency of the scheduler becomes a small-step
transition relation, and the pipeline's `while` loop becomes a
fuel-indexed step function whose divergence is provable for every fuel.  Machine integers of the source are modelled as `Nat`
(all quantities involved — timestamps, sizes, counters — are small
non-negative integers; no overflow is reachable).
-/

namespace Seedream

/-! ## Configuration constants (`CONFIG`, cache constants; seedream.ts lines 25-33, 64-66) -/

def API_TIMEOUT : Nat := 180000

def DOWNLOAD_TIMEOUT : Nat := 30000

def MAX_PARALLEL_DOWNLOADS : Nat := 4

def MAX_PARALLEL_API_CALLS : Nat := 2

def RETRY_ATTEMPTS : Nat := 2

def RETRY_DELAY : Nat := 1000

def DEFAULT_BATCH_COUNT : Nat := 4

def CACHE_MAX_SIZE : Nat := 10

def CACHE_TTL : Nat := 5 * 60 * 1000

def MODEL_ID : String := "seedream-4-5-251128"

/-! ## Base64 payload cache (seedream.ts lines 63-66, 99-138)

The source keeps `base64Cache : Map<string, {data, timestamp}>`.  A
JavaScript `Map` iterates in insertion order and `keys().next().value` is
the oldest-inserted key, so the cache is modelled as an association list in
insertion order, oldest first.  `Map.set` on an existing key updates the
value in place, keeping the key's position; on a new key it appends. -/

structure CacheEntry where
  data : String
  timestamp : Nat
deriving DecidableEq, Repr

/-- The cache: insertion-ordered association list, oldest entry first. -/
abbrev Cache := List (String × CacheEntry)

/-- `Map.get` — first (and in a real `Map`, only) entry for the key. -/
def cacheGet (c : Cache) (key : String) : Option CacheEntry :=
  (c.find? (fun e => e.1 = key)).map (·.2)

/-- `Map.set` semantics: update in place if the key exists, else append. -/
def cacheSet (c : Cache) (key : String) (v : CacheEntry) : Cache :=
  if c.any (fun e => e.1 = key) then
    c.map (fun e => if e.1 = key then (key, v) else e)
  else
    c ++ [(key, v)]

/-- First half of `cleanCache`: delete every entry with
`now - value.timestamp > CACHE_TTL` (seedream.ts lines 103-108). -/
def sweepExpired (now : Nat) (c : Cache) : Cache :=
  c.filter (fun e => !(now - e.2.timestamp > CACHE_TTL))

/-- The loop body of the size eviction, with explicit fuel (each
iteration deletes one entry, so `c.length` iterations always suffice;
structural recursion keeps the function kernel-reducible). -/
def evictLoop : Nat → Cache → Cache
  | 0, c => c
  | fuel + 1, c =>
      if c.length > CACHE_MAX_SIZE then evictLoop fuel c.tail else c

/-- Second half of `cleanCache`: `while (size > CACHE_MAX_SIZE) delete oldest`
(seedream.ts lines 109-113). -/
def evictOverflow (c : Cache) : Cache :=
  evictLoop c.length c

/-- `cleanCache()` (seedream.ts lines 102-114): TTL sweep, then size eviction. -/
def cleanCache (now : Nat) (c : Cache) : Cache :=
  evictOverflow (sweepExpired now c)

/-- `ext === "jpg" ? "jpeg" : ext` (seedream.ts line 130). -/
def mimeType (ext : String) : String :=
  if ext = "jpg" then "jpeg" else ext

/-- The data-URL built on a cache miss (seedream.ts lines 128-131).
`readFile` models `fs.promises.readFile` (file contents as a byte string),
`b64` models `Buffer.toString("base64")`, and `extname` models
`path.extname` (returns the extension including the dot, e.g. ".JPG");
the source lowercases it and drops the leading dot with `slice(1)`. -/
def encodeFile (readFile b64 extname : String → String)
    (filePath absolutePath : String) : String :=
  let ext := ((extname filePath).toLower).drop 1
  "data:image/" ++ mimeType ext ++ ";base64," ++ b64 (readFile absolutePath)

/-- Result of one `fileToBase64` call: the returned data URL, the cache
state after the call, and how many filesystem reads the call performed. -/
structure FBOut where
  data : String
  cache : Cache
  reads : Nat
deriving DecidableEq, Repr

/-- The cache-miss path of `fileToBase64` (seedream.ts lines 128-137):
read the file, encode, `cleanCache()`, then `set` with the current
timestamp.  Note the source cleans BEFORE inserting. -/
def fileToBase64Miss (readFile b64 extname : String → String) (now : Nat)
    (c : Cache) (filePath absolutePath : String) : FBOut :=
  let base64Data := encodeFile readFile b64 extname filePath absolutePath
  ⟨base64Data, cacheSet (cleanCache now c) absolutePath ⟨base64Data, now⟩, 1⟩

/-- `fileToBase64(filePath)` (seedream.ts lines 119-138).  `resolve` models
`path.resolve`; `now` is the call's `Date.now()`.  A cached entry is served
only when `now - cached.timestamp < CACHE_TTL`. -/
def fileToBase64 (readFile b64 extname resolve : String → String) (now : Nat)
    (c : Cache) (filePath : String) : FBOut :=
  let absolutePath := resolve filePath
  match cacheGet c absolutePath with
  | some cached =>
      if now - cached.timestamp < CACHE_TTL then ⟨cached.data, c, 0⟩
      else fileToBase64Miss readFile b64 extname now c filePath absolutePath
  | none => fileToBase64Miss readFile b64 extname now c filePath absolutePath

/-! ## Image input resolution and payload construction
(seedream.ts lines 143-150, 458-498)

`processImageInput` returns URLs and data URLs unchanged and otherwise
resolves a local path through `fileToBase64`.  For payload-level claims the
stateful cache call is abstracted as a `resolveLocal` oracle; the cache
behaviour itself is verified on the stateful model above. -/

def processImageInput (resolveLocal : String → String) (image : String) : String :=
  if image.startsWith "http://" || image.startsWith "https://"
      || image.startsWith "data:" then
    image
  else
    resolveLocal image

/-- `SIZE_MAP` (seedream.ts lines 48-61). -/
def SIZE_MAP (s : String) : Option String :=
  if s = "2K" then some "2K"
  else if s = "4K" then some "4K"
  else if s = "1:1" then some "2048x2048"
  else if s = "4:3" then some "2304x1728"
  else if s = "3:4" then some "1728x2304"
  else if s = "16:9" then some "2560x1440"
  else if s = "9:16" then some "1440x2560"
  else if s = "3:2" then some "2496x1664"
  else if s = "2:3" then some "1664x2496"
  else if s = "21:9" then some "3024x1296"
  else none

/-- `SIZE_MAP[size] || size` (seedream.ts line 464); no mapped value is
falsy, so the fallback fires exactly on lookup misses. -/
def mapSize (s : String) : String :=
  (SIZE_MAP s).getD s

/-- `GenerationOptions` (seedream.ts lines 68-75).  `strength` is a JS
number confined by the schema layer to [0,1]; it is modelled as `Rat`,
over which the clamp arithmetic of line 488 is exact. -/
structure GenerationOptions where
  prompt : String
  size : Option String := none
  images : Option (List String) := none
  strength : Option Rat := none
  batchCount : Option Nat := none
  watermark : Option Bool := none

/-- The `image` field of the payload: a single encoded value for one
reference image, an array for several (seedream.ts lines 475-483). -/
inductive ImageField where
  | single (img : String)
  | multiple (imgs : List String)
deriving DecidableEq, Repr

/-- The outbound API payload fields set by `generateImages`
(seedream.ts lines 461-489). -/
structure Payload where
  model : String
  prompt : String
  size : String
  response_format : String
  watermark : Bool
  stream : Bool
  image : Option ImageField := none
  sequential_image_generation : Option String := none
  strength : Option Rat := none
deriving DecidableEq, Repr

/-- Payload construction in `generateImages` (seedream.ts lines 458-490):
base fields, then the reference-image branch (single image vs. multi-image
blending with `sequential_image_generation = "disabled"`), then the
clamped `strength`. -/
def buildPayload (resolveLocal : String → String) (options : GenerationOptions) :
    Payload :=
  let size := options.size.getD "2K"
  let base : Payload :=
    { model := MODEL_ID
      prompt := options.prompt
      size := mapSize size
      response_format := "url"
      watermark := options.watermark.getD false
      stream := true }
  match options.images with
  | none => base
  | some imgs =>
      if imgs.length > 0 then
        let processedImages := imgs.map (processImageInput resolveLocal)
        let withImage :=
          if processedImages.length = 1 then
            { base with image := some (ImageField.single processedImages.headI) }
          else
            { base with
                image := some (ImageField.multiple processedImages)
                sequential_image_generation := some "disabled" }
        match options.strength with
        | some s => { withImage with strength := some (max 0 (min 1 s)) }
        | none => withImage
      else base

/-- `numCalls` (seedream.ts line 498):
`(!images || images.length === 0) ? Math.min(batchCount, 15) : 1`. -/
def numCalls (options : GenerationOptions) : Nat :=
  let batchCount := options.batchCount.getD DEFAULT_BATCH_COUNT
  match options.images with
  | none => min batchCount 15
  | some imgs => if imgs.length = 0 then min batchCount 15 else 1

/-! ## SSE stream parsing and consumption (seedream.ts lines 267-292, 386-420)

JSON parsing is external; a parsed `data: ` line payload is modelled by
what the source inspects of it: empty, the literal DONE marker, JSON that
fails to parse, or a parsed event object.  Of a parsed event the consumer
reads `type`, `url`, `size` and `error.message`. -/

inductive SSEEvent where
  /-- a frame with `type = "image_generation.partial_succeeded"`;
  `size` is absent when the frame carried none (line 389 defaults it). -/
  | succeededFrame (url : String) (size : Option String)
  /-- a frame with `type = "image_generation.partial_failed"`. -/
  | failedFrame (msg : Option String)
  /-- a frame of any other `type` (forward compatibility). -/
  | otherFrame
deriving DecidableEq, Repr

/-- The payload of one `data: ` line as the source distinguishes them
(seedream.ts lines 281-288). -/
inductive SSEData where
  | empty
  | doneMarker
  | invalidJson
  | json (e : SSEEvent)
deriving DecidableEq, Repr

/-- One line of the response stream: a `data: `-prefixed line, or any
other line (blank separators, comments), which line 280 skips. -/
inductive SSELine where
  | dataLine (d : SSEData)
  | otherLine
deriving DecidableEq, Repr

/-- `parseSSEStream` (seedream.ts lines 267-292): keep only `data: ` lines
whose payload is non-empty, not `[DONE]`, and valid JSON; yield the parsed
events in order. -/
def parseSSEStream (lines : List SSELine) : List SSEEvent :=
  lines.filterMap (fun l =>
    match l with
    | SSELine.dataLine (SSEData.json e) => some e
    | _ => none)

/-! ## Download stage (seedream.ts lines 162-202) -/

/-- `GeneratedImage` (seedream.ts lines 77-82). -/
structure GeneratedImage where
  url : String
  size : String
  localPath : Option String := none
  downloadTime : Option Nat := none
deriving DecidableEq, Repr

/-- The filename built at seedream.ts lines 174-175:
`seedream_<timestamp>_<index>.jpg`, where `<timestamp>` is the ISO
timestamp with `:` and `.` replaced by `-`, first 19 characters
(e.g. "2026-10-12T01-17-30"). -/
def downloadFilename (timestamp : String) (index : Nat) : String :=
  "seedream_" ++ timestamp ++ "_" ++ toString index ++ ".jpg"

/-- `path.join(downloadDir, filename)` for an already-normalised directory
without a trailing separator. -/
def joinPath (dir filename : String) : String :=
  dir ++ "/" ++ filename

deriving instance DecidableEq for Except

/-- Outcome of the retry loop of `downloadImage`: the final result, the
number of network attempts actually made, and the sleeps performed between
attempts (in ms, in order). -/
structure DownloadRun where
  result : Except String String
  attempts : Nat
  delays : List Nat
deriving DecidableEq, Repr

/-- The retry loop of `downloadImage` (seedream.ts lines 180-201).
`att n` is the outcome of the 0-based `n`-th attempt (the `axios.get` plus
`writeFile`); on success the loop returns the precomputed `localPath`,
on failure it sleeps `RETRY_DELAY * (attempt + 1)` while attempts remain,
and after the last attempt it throws the last error. -/
def downloadGo (att : Nat → Except String Unit) (retryAttempts : Nat)
    (localPath : String) (attempt : Nat) : DownloadRun :=
  match att attempt with
  | Except.ok _ => ⟨Except.ok localPath, 1, []⟩
  | Except.error e =>
      if h : attempt < retryAttempts then
        let rest := downloadGo att retryAttempts localPath (attempt + 1)
        ⟨rest.result, rest.attempts + 1, RETRY_DELAY * (attempt + 1) :: rest.delays⟩
      else ⟨Except.error e, 1, []⟩
termination_by retryAttempts - attempt

/-- `downloadImage(url, downloadDir, index, retryAttempts)` (seedream.ts
lines 162-202), with the network/filesystem attempt abstracted as `att`
and the timestamp of line 174 as a parameter. -/
def downloadImage (att : Nat → Except String Unit) (downloadDir : String)
    (timestamp : String) (index : Nat)
    (retryAttempts : Nat := RETRY_ATTEMPTS) : DownloadRun :=
  downloadGo att retryAttempts
    (joinPath downloadDir (downloadFilename timestamp index)) 0

/-! ## Per-unit pipeline: generate then immediately download
(seedream.ts lines 375-430)

`makeStreamingRequest` either rejects (non-200 response, network error,
timeout — lines 338-364) or resolves with the streaming body; it is
modelled as `Except String (List SSELine)`.  A successful download is the
pair (localPath, downloadTime). -/

/-- The event loop of `generateAndDownloadImage` over the parsed events
(seedream.ts lines 386-420): the first `succeededFrame` is terminal — the
unit downloads (when enabled) and returns without reading further frames;
the first `failedFrame` is terminal with `null`; other frames are skipped;
stream end yields `null`.  `dl` is the outcome of `downloadImage` for this
unit's URL (seedream.ts line 401). -/
def consumeEvents (shouldDownload : Bool)
    (dl : Except String (String × Nat)) :
    List SSEEvent → Option GeneratedImage
  | [] => none
  | SSEEvent.succeededFrame url size :: _ =>
      let sz := size.getD "2K"
      if shouldDownload then
        match dl with
        | Except.ok (localPath, downloadTime) =>
            some ⟨url, sz, some localPath, some downloadTime⟩
        | Except.error _ => some ⟨url, sz, none, none⟩
      else some ⟨url, sz, none, none⟩
  | SSEEvent.failedFrame _ :: _ => none
  | SSEEvent.otherFrame :: rest => consumeEvents shouldDownload dl rest

/-- `generateAndDownloadImage` (seedream.ts lines 375-430): a rejected
request is caught and yields `null`; otherwise the SSE stream is parsed
and consumed as above. -/
def generateAndDownloadImage (conn : Except String (List SSELine))
    (shouldDownload : Bool) (dl : Except String (String × Nat)) :
    Option GeneratedImage :=
  match conn with
  | Except.error _ => none
  | Except.ok lines => consumeEvents shouldDownload dl (parseSSEStream lines)

/-! ## Result ordering (seedream.ts lines 565-570)

`generatedImages.sort(...)` compares `parseInt` of the capture of
`/_(\d+)\.jpg$/` on `localPath` (0 when the regex fails) and uses 0 when
`localPath` is absent.  `Array.prototype.sort` with the numeric comparator
`idxA - idxB` is, per ES2019, a stable ascending sort by that key; it is
modelled as a stable insertion sort. -/

/-- `parseInt` on a non-empty string of decimal digits. -/
def digitsToNat (ds : List Char) : Nat :=
  ds.foldl (fun n c => n * 10 + (c.toNat - '0'.toNat)) 0

/-- The key `parseInt(p.match(/_(\d+)\.jpg$/)?.[1] || "0")`: the maximal
run of digits directly before a final ".jpg" and directly after an
underscore, 0 when there is no such match. -/
def extractIndex (p : String) : Nat :=
  let rev := p.data.reverse
  if rev.take 4 = ['g', 'p', 'j', '.'] then
    let rest := rev.drop 4
    let digitsRev := rest.takeWhile Char.isDigit
    if digitsRev ≠ [] ∧ (rest.drop digitsRev.length).head? = some '_' then
      digitsToNat digitsRev.reverse
    else 0
  else 0

/-- The comparator key of seedream.ts lines 567-568. -/
def sortKey (img : GeneratedImage) : Nat :=
  match img.localPath with
  | some p => extractIndex p
  | none => 0

/-- Stable insertion of `x` into a key-sorted list: `x` goes before the
first element with a strictly larger key, hence after earlier elements
with an equal key. -/
def insertByKey (key : GeneratedImage → Nat) (x : GeneratedImage) :
    List GeneratedImage → List GeneratedImage
  | [] => [x]
  | y :: ys =>
      if key y < key x then y :: insertByKey key x ys
      else x :: y :: ys

/-- Stable ascending sort by key (model of `Array.prototype.sort` with the
comparator `idxA - idxB`). -/
def sortByKey (key : GeneratedImage → Nat) :
    List GeneratedImage → List GeneratedImage
  | [] => []
  | x :: xs => insertByKey key x (sortByKey key xs)

/-- The sort pass of `generateImages` (seedream.ts lines 566-570). -/
def sortImages (images : List GeneratedImage) : List GeneratedImage :=
  sortByKey sortKey images

/-! ## Aggregation and the overall result (seedream.ts lines 436-618) -/

/-- `GenerationResult.timing` (seedream.ts lines 92-96). -/
structure Timing where
  generation_ms : Nat
  download_ms : Nat
  total_ms : Nat
deriving DecidableEq, Repr

/-- `GenerationResult.usage` (seedream.ts lines 88-91). -/
structure Usage where
  generated_images : Nat
  total_tokens : Nat
deriving DecidableEq, Repr

/-- `GenerationResult` (seedream.ts lines 84-97). -/
structure GenerationResult where
  success : Bool
  images : List GeneratedImage
  error : Option String := none
  usage : Option Usage := none
  timing : Option Timing := none
deriving DecidableEq, Repr

/-- The aggregation tail of `generateImages` (seedream.ts lines 527-529,
550-554, 566-570, 596-605): the per-unit outcomes, listed in completion
order, contribute exactly their non-null results; usage counts them;
the images are sorted; `download_ms` is the literal 0 of line 602. -/
def aggregateResults (outcomes : List (Option GeneratedImage))
    (generationTime totalTime : Nat) : GenerationResult :=
  let generatedImages := outcomes.filterMap id
  { success := true
    images := sortImages generatedImages
    usage := some ⟨generatedImages.length, generatedImages.length * 4096⟩
    timing := some ⟨generationTime, 0, totalTime⟩ }

/-- The missing-credential early return of `generateImages`
(seedream.ts lines 446-453). -/
def missingKeyResult : GenerationResult :=
  { success := false
    images := []
    error := some "ARK_API_KEY environment variable is not set. Please set it before using this tool." }

/-! ## The pipeline loop of `generateImages` (seedream.ts lines 503-548)

The loop keeps `queue` (unstarted tasks) and `inProgress` (task
promises).  Each outer iteration starts queued tasks while
`inProgress.length < MAX_PARALLEL_API_CALLS` (lines 515-532), awaits
`Promise.race(inProgress)` (line 535), and then probes each promise
with `Promise.race([inProgress[i].then(() => "fulfilled"),
Promise.resolve("pending")])` (lines 539-542).  Under ECMAScript job
ordering this probe always answers "pending": even when `inProgress[i]`
is already settled, the `.then`-derived promise settles one microtask
after the already-resolved competitor's race reaction, so the race is
won by "pending" and the `splice` at line 544 never runs.  `inProgress`
therefore never shrinks, and the loop guard
`queue.length > 0 || inProgress.length > 0` (line 513) can only turn
false if the loop started with no tasks at all.  The loop is modelled
on its observable state — the unstarted queue and the length of
`inProgress`, which (as nothing is ever removed) equals the number of
tasks ever started.  `fuel` bounds the number of outer iterations
inspected; a run still looping after `fuel` iterations is `none`, and a
diverging run is `none` for every fuel. -/

/-- The inner fill loop (seedream.ts lines 515-532): shift tasks off the
queue into `inProgress` while under `MAX_PARALLEL_API_CALLS`; returns
the remaining queue and the new `inProgress` length. -/
def fillSlots (inProgress : Nat) : List Nat → List Nat × Nat
  | [] => ([], inProgress)
  | i :: rest =>
      if inProgress < MAX_PARALLEL_API_CALLS then fillSlots (inProgress + 1) rest
      else (i :: rest, inProgress)

/-- The outer `while` loop (seedream.ts lines 513-548).  One iteration
fills the pool, awaits the race and runs the removal pass, which never
removes anything (see the section comment), so an iteration changes the
state by `fillSlots` alone.  Returns the final `inProgress` length when
the guard turns false within `fuel` iterations, `none` otherwise. -/
def runLoop : Nat → List Nat → Nat → Option Nat
  | 0, queue, inProgress =>
      if queue.length > 0 ∨ inProgress > 0 then none else some inProgress
  | fuel + 1, queue, inProgress =>
      if queue.length > 0 ∨ inProgress > 0 then
        runLoop fuel (fillSlots inProgress queue).1 (fillSlots inProgress queue).2
      else some inProgress

/-- `generateImages` (seedream.ts lines 436-618) under the actual loop
semantics.  The missing-key gate (lines 446-453) returns immediately;
otherwise `numCalls` tasks are queued (lines 498-511) and the pipeline
loop runs.  When the loop exits, its guard forces `inProgress = 0`, and
since the probe never removes promises `inProgress` counts every task
ever started — so no generation unit ever ran and the aggregation tail
(lines 550-605) runs over an empty completion list.  A call whose loop
is still running yields `none` — and stays `none` for every `fuel` when
at least one task was queued.  The pre-loop failure path (unreadable
reference image, caught at line 606) is outside this model. -/
def generateImagesRun (apiKey : Option String) (options : GenerationOptions)
    (fuel generationTime totalTime : Nat) : Option GenerationResult :=
  match apiKey with
  | none => some missingKeyResult
  | some _ =>
      match runLoop fuel (List.range' 1 (numCalls options)) 0 with
      | none => none
      | some _ => some (aggregateResults [] generationTime totalTime)

/-! ## The scheduler's concurrency structure (seedream.ts lines 510-548)

The pipeline loop keeps a `queue` of pending unit indices and an
`inProgress` array of at most `MAX_PARALLEL_API_CALLS` task promises; each
task runs `generateAndDownloadImage`, which performs the unit's generation
and then — inside the same task, hence inside the same `inProgress` slot —
its download (seedream.ts line 401).  `downloadImagesParallel` (lines
207-262), the pool bounded by `MAX_PARALLEL_DOWNLOADS`, is not referenced
by `generateImages`.  The loop is modelled as a transition relation over
the single-threaded event loop's observable states; a task is in the
`generating` phase until its success frame arrives and in the
`downloading` phase while its `downloadImage` call is in flight. -/

inductive UnitPhase where
  | generating
  | downloading
deriving DecidableEq, Repr

structure UnitTask where
  index : Nat
  phase : UnitPhase
deriving DecidableEq, Repr

structure SchedState where
  queue : List Nat
  inFlight : List UnitTask
  finished : List Nat
deriving DecidableEq, Repr

/-- State before the loop: all unit indices pending, nothing in flight
(seedream.ts lines 503-511). -/
def initSched (n : Nat) : SchedState :=
  ⟨List.range' 1 n, [], []⟩

/-- One observable transition of the pipeline loop: starting a queued
task while under the cap (lines 515-532), a task's generation completing
into its in-slot download (line 401), or a task finishing (result pushed,
promise fulfilled and removed, lines 527-546).  `finishNoDownload` covers
units that fail generation or run with downloads disabled. -/
inductive SchedStep : SchedState → SchedState → Prop where
  | startTask (i : Nat) (rest : List Nat) (s : SchedState)
      (hq : s.queue = i :: rest)
      (hcap : s.inFlight.length < MAX_PARALLEL_API_CALLS) :
      SchedStep s ⟨rest, s.inFlight ++ [⟨i, UnitPhase.generating⟩], s.finished⟩
  | startDownload (i : Nat) (l r : List UnitTask) (s : SchedState)
      (hf : s.inFlight = l ++ ⟨i, UnitPhase.generating⟩ :: r) :
      SchedStep s ⟨s.queue, l ++ ⟨i, UnitPhase.downloading⟩ :: r, s.finished⟩
  | finishDownload (i : Nat) (l r : List UnitTask) (s : SchedState)
      (hf : s.inFlight = l ++ ⟨i, UnitPhase.downloading⟩ :: r) :
      SchedStep s ⟨s.queue, l ++ r, s.finished ++ [i]⟩
  | finishNoDownload (i : Nat) (l r : List UnitTask) (s : SchedState)
      (hf : s.inFlight = l ++ ⟨i, UnitPhase.generating⟩ :: r) :
      SchedStep s ⟨s.queue, l ++ r, s.finished ++ [i]⟩

/-- Reachability of pipeline states from the initial state. -/
def SchedReach (n : Nat) (s : SchedState) : Prop :=
  Relation.ReflTransGen SchedStep (initSched n) s

/-- Number of downloads in flight in a state. -/
def countDownloading (s : SchedState) : Nat :=
  (s.inFlight.filter (fun t => t.phase = UnitPhase.downloading)).length

/-! ## Helper lemmas about the sort pass -/

theorem insertByKey_perm (key : GeneratedImage → Nat) (x : GeneratedImage) :
    ∀ l : List GeneratedImage, List.Perm (insertByKey key x l) (x :: l) := by
  intro l
  induction l with
  | nil => simp [insertByKey]
  | cons y ys ih =>
      by_cases h : key y < key x
      · rw [insertByKey, if_pos h]
        exact List.Perm.trans (List.Perm.cons y ih) (List.Perm.swap x y ys)
      · rw [insertByKey, if_neg h]

theorem sortByKey_perm (key : GeneratedImage → Nat) :
    ∀ l : List GeneratedImage, List.Perm (sortByKey key l) l := by
  intro l
  induction l with
  | nil => simp [sortByKey]
  | cons x xs ih =>
      exact List.Perm.trans (insertByKey_perm key x (sortByKey key xs))
        (List.Perm.cons x ih)

theorem sortImages_perm (l : List GeneratedImage) :
    List.Perm (sortImages l) l :=
  sortByKey_perm sortKey l

theorem insertByKey_pairwise (key : GeneratedImage → Nat) (x : GeneratedImage) :
    ∀ l : List GeneratedImage,
      List.Pairwise (fun a b => key a ≤ key b) l →
      List.Pairwise (fun a b => key a ≤ key b) (insertByKey key x l) := by
  intro l
  induction l with
  | nil => intro _; simp [insertByKey]
  | cons y ys ih =>
      intro hl
      rcases hl with _ | ⟨hy, hys⟩
      by_cases h : key y < key x
      · rw [insertByKey, if_pos h]
        refine List.Pairwise.cons ?_ (ih hys)
        intro z hz
        have hz' : z ∈ x :: ys := (insertByKey_perm key x ys).mem_iff.mp hz
        rcases List.mem_cons.mp hz' with rfl | hz''
        · exact Nat.le_of_lt h
        · exact hy z hz''
      · rw [insertByKey, if_neg h]
        refine List.Pairwise.cons ?_ (List.Pairwise.cons hy hys)
        intro z hz
        rcases List.mem_cons.mp hz with rfl | hz'
        · exact Nat.le_of_not_lt h
        · exact le_trans (Nat.le_of_not_lt h) (hy z hz')

theorem sortByKey_pairwise (key : GeneratedImage → Nat) :
    ∀ l : List GeneratedImage,
      List.Pairwise (fun a b => key a ≤ key b) (sortByKey key l) := by
  intro l
  induction l with
  | nil => simp [sortByKey]
  | cons x xs ih => exact insertByKey_pairwise key x (sortByKey key xs) ih

theorem sortImages_pairwise (l : List GeneratedImage) :
    List.Pairwise (fun a b => sortKey a ≤ sortKey b) (sortImages l) :=
  sortByKey_pairwise sortKey l

/-- A key-sorted permutation of a strictly key-sorted list is that list:
used to show the sort restores original unit order exactly when every
image carries a distinct embedded index. -/
theorem sorted_perm_of_strict_sorted (key : GeneratedImage → Nat) :
    ∀ (l m : List GeneratedImage),
      List.Pairwise (fun a b => key a < key b) l →
      List.Pairwise (fun a b => key a ≤ key b) m →
      List.Perm m l → m = l := by
  intro l
  induction l with
  | nil => intro m _ _ hp; exact hp.eq_nil
  | cons a l' ih =>
      intro m hl hm hp
      rcases hl with _ | ⟨ha, hl'⟩
      cases m with
      | nil => exact absurd hp.length_eq (by simp)
      | cons h t =>
          rcases hm with _ | ⟨hh, ht⟩
          have hha : h = a := by
            have hmem : h ∈ a :: l' := hp.mem_iff.mp (List.mem_cons_self h t)
            rcases List.mem_cons.mp hmem with rfl | hmem'
            · rfl
            · exfalso
              have hah : key a < key h := ha h hmem'
              have hamem : a ∈ h :: t := hp.mem_iff.mpr (List.mem_cons_self a l')
              rcases List.mem_cons.mp hamem with heq | hamem'
              · rw [heq] at hah
                exact lt_irrefl _ hah
              · have h1 : key h ≤ key a := hh a hamem'
                omega
          subst hha
          have ht' : List.Perm t l' := hp.cons_inv
          exact congrArg (h :: ·) (ih t hl' ht ht')


/-- Stability of the sort: within one key class the original (completion)
order is preserved — this is the ES2019 stable-sort guarantee the model
realises.  Class of the inserted element, sorted tail. -/
theorem insertByKey_filter_eq (key : GeneratedImage → Nat) (x : GeneratedImage)
    (k : Nat) (hx : key x = k) :
    ∀ l : List GeneratedImage,
      List.Pairwise (fun a b => key a ≤ key b) l →
      (insertByKey key x l).filter (fun i => key i == k) =
        x :: l.filter (fun i => key i == k) := by
  intro l
  induction l with
  | nil => intro _; simp [insertByKey, hx]
  | cons y ys ih =>
      intro hl
      rcases hl with _ | ⟨hy, hys⟩
      by_cases h : key y < key x
      · have hyk : (key y == k) = false := by
          simp only [beq_eq_false_iff_ne]
          omega
        rw [insertByKey, if_pos h]
        simp only [List.filter_cons, hyk]
        exact ih hys
      · rw [insertByKey, if_neg h]
        simp [hx]

/-- Inserting an element of another key class leaves a class filter
unchanged. -/
theorem insertByKey_filter_ne (key : GeneratedImage → Nat) (x : GeneratedImage)
    (k : Nat) (hx : key x ≠ k) :
    ∀ l : List GeneratedImage,
      (insertByKey key x l).filter (fun i => key i == k) =
        l.filter (fun i => key i == k) := by
  intro l
  induction l with
  | nil => simp [insertByKey, hx]
  | cons y ys ih =>
      by_cases h : key y < key x
      · rw [insertByKey, if_pos h]
        simp only [List.filter_cons]
        rw [ih]
      · rw [insertByKey, if_neg h]
        simp [hx]

/-- The per-key-class stability of the sort pass. -/
theorem sortImages_stable (k : Nat) :
    ∀ l : List GeneratedImage,
      (sortImages l).filter (fun i => sortKey i == k) =
        l.filter (fun i => sortKey i == k) := by
  intro l
  induction l with
  | nil => simp [sortImages, sortByKey]
  | cons x xs ih =>
      show (insertByKey sortKey x (sortByKey sortKey xs)).filter _ = _
      by_cases hx : sortKey x = k
      · rw [insertByKey_filter_eq sortKey x k hx _ (sortByKey_pairwise sortKey xs)]
        simp [List.filter_cons, hx]
        exact ih
      · rw [insertByKey_filter_ne sortKey x k hx]
        have hxk : (sortKey x == k) = false := by
          simp only [beq_eq_false_iff_ne]
          exact hx
        simp only [List.filter_cons, hxk]
        exact ih

/-! ## Helper lemmas about the stream consumer -/

/-- Frames of unrecognised type in front of the stream are skipped. -/
theorem consumeEvents_skip (sd : Bool) (dl : Except String (String × Nat)) :
    ∀ (others evs : List SSEEvent),
      (∀ e ∈ others, e = SSEEvent.otherFrame) →
      consumeEvents sd dl (others ++ evs) = consumeEvents sd dl evs := by
  intro others
  induction others with
  | nil => intro evs _; rfl
  | cons e es ih =>
      intro evs h
      have he : e = SSEEvent.otherFrame := h e (List.mem_cons_self e es)
      subst he
      simp only [List.cons_append, consumeEvents]
      exact ih evs (fun e' he' => h e' (List.mem_cons_of_mem _ he'))

/-! ## Helper lemmas about the cache -/

theorem find?_replace_self (k : String) (v : CacheEntry) :
    ∀ c : Cache, c.any (fun e => e.1 = k) = true →
      (c.map (fun e => if e.1 = k then (k, v) else e)).find?
        (fun e => e.1 = k) = some (k, v) := by
  intro c
  induction c with
  | nil => intro h; simp at h
  | cons e es ih =>
      intro h
      by_cases he : e.1 = k
      · simp [he]
      · have h' : es.any (fun e => e.1 = k) = true := by
          simp only [List.any_cons] at h
          rcases Bool.or_eq_true_iff.mp h with h1 | h2
          · exact absurd (of_decide_eq_true h1) he
          · exact h2
        simp only [List.map_cons, if_neg he]
        rw [List.find?_cons_of_neg _ (by simpa using he)]
        exact ih h'

theorem find?_append_self (k : String) (v : CacheEntry) :
    ∀ c : Cache, c.any (fun e => e.1 = k) = false →
      (c ++ [(k, v)]).find? (fun e => e.1 = k) = some (k, v) := by
  intro c
  induction c with
  | nil => intro _; simp
  | cons e es ih =>
      intro h
      simp only [List.any_cons, Bool.or_eq_false_iff] at h
      have he : ¬ e.1 = k := by
        intro hk
        simp [hk] at h
      simp only [List.cons_append]
      rw [List.find?_cons_of_neg _ (by simpa using he)]
      exact ih h.2

/-- After a `Map.set`, looking the key up yields exactly the stored value. -/
theorem cacheGet_cacheSet_self (c : Cache) (k : String) (v : CacheEntry) :
    cacheGet (cacheSet c k v) k = some v := by
  by_cases h : c.any (fun e => e.1 = k) = true
  · simp only [cacheGet, cacheSet, if_pos h]
    rw [find?_replace_self k v c h]
    rfl
  · have h' : c.any (fun e => e.1 = k) = false := by
      cases hb : c.any (fun e => e.1 = k) with
      | false => rfl
      | true => exact absurd hb h
    simp only [cacheGet, cacheSet, h']
    simp only [Bool.false_eq_true, if_false]
    rw [find?_append_self k v c h']
    rfl

/-- A live cache hit serves the stored data without touching the
filesystem. -/
theorem fileToBase64_hit (readFile b64 extname resolve : String → String)
    (now : Nat) (c : Cache) (p : String) (entry : CacheEntry)
    (hg : cacheGet c (resolve p) = some entry)
    (hlive : now - entry.timestamp < CACHE_TTL) :
    fileToBase64 readFile b64 extname resolve now c p =
      ⟨entry.data, c, 0⟩ := by
  simp [fileToBase64, hg, hlive]

/-! ## Helper lemmas about the download retry loop -/

theorem downloadGo_attempts_le (att : Nat → Except String Unit) (lp : String) :
    ∀ (fuel a ra : Nat), ra - a ≤ fuel →
      (downloadGo att ra lp a).attempts ≤ ra - a + 1 := by
  intro fuel
  induction fuel with
  | zero =>
      intro a ra hle
      have hnlt : ¬ a < ra := by omega
      rw [downloadGo]
      cases att a with
      | ok u => simp
      | error e => simp [hnlt]
  | succ n ih =>
      intro a ra hle
      rw [downloadGo]
      cases att a with
      | ok u => simp
      | error e =>
          by_cases hlt : a < ra
          · simp only [hlt, dite_true]
            have hrec := ih (a + 1) ra (by omega)
            show (downloadGo att ra lp (a + 1)).attempts + 1 ≤ ra - a + 1
            omega
          · simp [hlt]

/-! ## Helper lemmas about the scheduler machine -/

theorem schedStep_inFlight_le {s s' : SchedState} (h : SchedStep s s')
    (hs : s.inFlight.length ≤ MAX_PARALLEL_API_CALLS) :
    s'.inFlight.length ≤ MAX_PARALLEL_API_CALLS := by
  cases h with
  | startTask i rest s hq hcap =>
      simp only [List.length_append, List.length_cons, List.length_nil]
      omega
  | startDownload i l r s hf =>
      rw [hf] at hs
      simpa using hs
  | finishDownload i l r s hf =>
      rw [hf] at hs
      simp only [List.length_append, List.length_cons] at hs ⊢
      omega
  | finishNoDownload i l r s hf =>
      rw [hf] at hs
      simp only [List.length_append, List.length_cons] at hs ⊢
      omega

theorem schedReach_inFlight_le (n : Nat) :
    ∀ s, SchedReach n s → s.inFlight.length ≤ MAX_PARALLEL_API_CALLS := by
  intro s h
  induction h with
  | refl => simp [initSched, MAX_PARALLEL_API_CALLS]
  | tail hr step ih => exact schedStep_inFlight_le step ih

theorem countDownloading_le_inFlight (s : SchedState) :
    countDownloading s ≤ s.inFlight.length :=
  List.length_filter_le _ _

/-- Started tasks are never un-started: `fillSlots` cannot decrease the
`inProgress` length. -/
theorem fillSlots_inProgress_ge (q : List Nat) :
    ∀ ip : Nat, ip ≤ (fillSlots ip q).2 := by
  induction q with
  | nil => intro ip; simp [fillSlots]
  | cons i rest ih =>
      intro ip
      by_cases h : ip < MAX_PARALLEL_API_CALLS
      · rw [fillSlots, if_pos h]
        exact le_trans (Nat.le_succ ip) (ih (ip + 1))
      · rw [fillSlots, if_neg h]

/-- Filling preserves the loop guard: a state with pending or started
tasks still has pending or started tasks after the fill pass. -/
theorem fillSlots_live (q : List Nat) (ip : Nat)
    (h : q ≠ [] ∨ ip > 0) :
    (fillSlots ip q).1 ≠ [] ∨ (fillSlots ip q).2 > 0 := by
  cases q with
  | nil =>
      rcases h with h | h
      · exact absurd rfl h
      · right
        simpa [fillSlots] using h
  | cons i rest =>
      by_cases hlt : ip < MAX_PARALLEL_API_CALLS
      · right
        have h1 := fillSlots_inProgress_ge rest (ip + 1)
        rw [fillSlots, if_pos hlt]
        omega
      · left
        simp [fillSlots, hlt]

/-- The pipeline loop never terminates once it holds a pending or
started task: the removal probe never fires, so `inProgress` never
drains and the guard at seedream.ts line 513 stays true forever. -/
theorem runLoop_diverges :
    ∀ (fuel : Nat) (q : List Nat) (ip : Nat), q ≠ [] ∨ ip > 0 →
      runLoop fuel q ip = none := by
  intro fuel
  induction fuel with
  | zero =>
      intro q ip h
      have hc : q.length > 0 ∨ ip > 0 := by
        rcases h with h | h
        · exact Or.inl (List.length_pos.mpr h)
        · exact Or.inr h
      simp [runLoop, hc]
  | succ f ih =>
      intro q ip h
      have hc : q.length > 0 ∨ ip > 0 := by
        rcases h with h | h
        · exact Or.inl (List.length_pos.mpr h)
        · exact Or.inr h
      rw [runLoop, if_pos hc]
      exact ih _ _ (fillSlots_live q ip h)

/-- A unit-free run exits the loop at once. -/
theorem runLoop_no_tasks (fuel : Nat) : runLoop fuel [] 0 = some 0 := by
  cases fuel <;> simp [runLoop]

/-- `generateImages` never returns once at least one generation unit is
issued: for every fuel the run is still inside the loop. -/
theorem generateImagesRun_diverges (key : String)
    (options : GenerationOptions) (h : 1 ≤ numCalls options)
    (fuel g t : Nat) :
    generateImagesRun (some key) options fuel g t = none := by
  have hq : List.range' 1 (numCalls options) ≠ [] := by
    intro hnil
    have hlen := congrArg List.length hnil
    simp at hlen
    omega
  simp [generateImagesRun, runLoop_diverges fuel _ 0 (Or.inl hq)]

/-! ## Claim theorems -/

/-- C3: For every request: with zero reference images the Scheduler issues
exactly min(batchCount, 15) generation units; with exactly one reference
image it issues exactly 1 unit; with two or more reference images it
issues exactly 1 unit regardless of requested batchCount and the outbound
payload has sequential_image_generation set to "disabled". -/
theorem C3_unit_count_and_blend_flag (resolveLocal : String → String)
    (options : GenerationOptions) (k : Nat)
    (hk : options.batchCount = some k) :
    ((options.images = none ∨ options.images = some []) →
      numCalls options = min k 15) ∧
    (∀ img, options.images = some [img] → numCalls options = 1) ∧
    (∀ imgs, options.images = some imgs → 2 ≤ imgs.length →
      numCalls options = 1 ∧
      (buildPayload resolveLocal options).sequential_image_generation =
        some "disabled") := by
  refine ⟨?_, ?_, ?_⟩
  · rintro (h | h) <;> simp [numCalls, h, hk]
  · intro img h
    simp [numCalls, h, hk]
  · intro imgs h h2
    have hne0 : ¬ imgs.length = 0 := by omega
    refine ⟨by simp [numCalls, h, hk, hne0], ?_⟩
    have hlen : imgs.length > 0 := by omega
    have hne1 : ¬ imgs.length = 1 := by omega
    cases hs : options.strength with
    | none => simp [buildPayload, h, hlen, hne1, hs]
    | some s => simp [buildPayload, h, hlen, hne1, hs]

/-- Witness for C3 at concrete requests: batch of 20 without references is
capped to 15 units, one reference gives 1 unit, and a two-image blend
gives 1 unit with sequential generation disabled. -/
theorem C3_unit_count_and_blend_flag_witness :
    numCalls { prompt := "p", batchCount := some 20 } = 15 ∧
    numCalls { prompt := "p", images := some ["a"], batchCount := some 7 } = 1 ∧
    numCalls { prompt := "p", images := some ["a", "b"], batchCount := some 7 } = 1 ∧
    (buildPayload id
      { prompt := "p", images := some ["a", "b"], batchCount := some 7 }).sequential_image_generation = some "disabled" := by
  have h0 := C3_unit_count_and_blend_flag id
    { prompt := "p", batchCount := some 20 } 20 rfl
  have h1 := C3_unit_count_and_blend_flag id
    { prompt := "p", images := some ["a"], batchCount := some 7 } 7 rfl
  have h2 := C3_unit_count_and_blend_flag id
    { prompt := "p", images := some ["a", "b"], batchCount := some 7 } 7 rfl
  have ha := h0.1 (Or.inl rfl)
  have hb := h1.2.1 "a" rfl
  have hc := (h2.2.2 ["a", "b"] rfl (by decide)).1
  have hd := (h2.2.2 ["a", "b"] rfl (by decide)).2
  exact ⟨by rw [ha]; decide, hb, hc, hd⟩

/-- C6: download(url, dir, index) makes at most 3 network attempts
(1 initial + 2 retries); failing twice then succeeding on the 3rd attempt
returns successfully with exactly 3 attempts and inter-attempt delays of
RETRY_DELAY×1 then RETRY_DELAY×2; after all 3 attempts fail, the last
error is raised to the caller. -/
theorem C6_download_retry_policy (att : Nat → Except String Unit)
    (dir ts : String) (idx : Nat) (e0 e1 e2 : String) :
    (downloadImage att dir ts idx).attempts ≤ RETRY_ATTEMPTS + 1 ∧
    (att 0 = Except.error e0 → att 1 = Except.error e1 →
      att 2 = Except.ok () →
      downloadImage att dir ts idx =
        ⟨Except.ok (joinPath dir (downloadFilename ts idx)), 3,
          [RETRY_DELAY * 1, RETRY_DELAY * 2]⟩) ∧
    (att 0 = Except.error e0 → att 1 = Except.error e1 →
      att 2 = Except.error e2 →
      downloadImage att dir ts idx =
        ⟨Except.error e2, 3, [RETRY_DELAY * 1, RETRY_DELAY * 2]⟩) := by
  refine ⟨?_, ?_, ?_⟩
  · have h := downloadGo_attempts_le att
      (joinPath dir (downloadFilename ts idx)) RETRY_ATTEMPTS 0 RETRY_ATTEMPTS
      (by omega)
    simpa [downloadImage] using h
  · intro h0 h1 h2
    rw [downloadImage]
    rw [downloadGo, h0]
    rw [downloadGo, h1]
    rw [downloadGo, h2]
    simp [RETRY_ATTEMPTS]
  · intro h0 h1 h2
    rw [downloadImage]
    rw [downloadGo, h0]
    rw [downloadGo, h1]
    rw [downloadGo, h2]
    simp [RETRY_ATTEMPTS]

/-- Witness for C6 on concrete attempt oracles. -/
theorem C6_download_retry_policy_witness :
    downloadImage (fun n => if n < 2 then Except.error "boom" else Except.ok ())
        "./generated_images" "2026-10-12T01-17-30" 2 =
      ⟨Except.ok "./generated_images/seedream_2026-10-12T01-17-30_2.jpg", 3,
        [1000, 2000]⟩ ∧
    downloadImage (fun n =>
        if n = 0 then Except.error "e0"
        else if n = 1 then Except.error "e1" else Except.error "e2")
        "./generated_images" "2026-10-12T01-17-30" 2 =
      ⟨Except.error "e2", 3, [1000, 2000]⟩ := by
  constructor
  · have h := (C6_download_retry_policy
      (fun n => if n < 2 then Except.error "boom" else Except.ok ())
      "./generated_images" "2026-10-12T01-17-30" 2 "boom" "boom" "unused").2.1
      rfl rfl rfl
    simpa [joinPath, downloadFilename, RETRY_DELAY] using h
  · have h := (C6_download_retry_policy
      (fun n =>
        if n = 0 then Except.error "e0"
        else if n = 1 then Except.error "e1" else Except.error "e2")
      "./generated_images" "2026-10-12T01-17-30" 2 "e0" "e1" "e2").2.2
      rfl rfl rfl
    simpa [RETRY_DELAY] using h


/-- C7: calling get-or-encode twice on the same local path within 5
minutes performs exactly one filesystem read (the second call returns the
cached encoded payload); a cached entry older than 5 minutes is not
served, and the file is read again on that call. -/
theorem C7_cache_read_once (readFile b64 extname resolve : String → String)
    (t1 t2 : Nat) (c : Cache) (p : String)
    (hfresh : cacheGet c (resolve p) = none)
    (hwin : t2 - t1 < CACHE_TTL) :
    (fileToBase64 readFile b64 extname resolve t1 c p).reads = 1 ∧
    (fileToBase64 readFile b64 extname resolve t2
        (fileToBase64 readFile b64 extname resolve t1 c p).cache p).reads = 0 ∧
    (fileToBase64 readFile b64 extname resolve t2
        (fileToBase64 readFile b64 extname resolve t1 c p).cache p).data =
      (fileToBase64 readFile b64 extname resolve t1 c p).data ∧
    (∀ (c2 : Cache) (entry : CacheEntry) (now : Nat),
      cacheGet c2 (resolve p) = some entry →
      CACHE_TTL < now - entry.timestamp →
      (fileToBase64 readFile b64 extname resolve now c2 p).reads = 1) := by
  have hc1 : (fileToBase64 readFile b64 extname resolve t1 c p).cache =
      cacheSet (cleanCache t1 c) (resolve p)
        ⟨encodeFile readFile b64 extname p (resolve p), t1⟩ := by
    simp [fileToBase64, hfresh, fileToBase64Miss]
  have hd1 : (fileToBase64 readFile b64 extname resolve t1 c p).data =
      encodeFile readFile b64 extname p (resolve p) := by
    simp [fileToBase64, hfresh, fileToBase64Miss]
  have hget : cacheGet (fileToBase64 readFile b64 extname resolve t1 c p).cache
      (resolve p) =
      some ⟨encodeFile readFile b64 extname p (resolve p), t1⟩ := by
    rw [hc1]
    exact cacheGet_cacheSet_self _ _ _
  refine ⟨by simp [fileToBase64, hfresh, fileToBase64Miss], ?_, ?_, ?_⟩
  · rw [fileToBase64_hit readFile b64 extname resolve t2 _ p _ hget hwin]
  · rw [fileToBase64_hit readFile b64 extname resolve t2 _ p _ hget hwin, hd1]
  · intro c2 entry now hg hold
    have hnot : ¬ (now - entry.timestamp < CACHE_TTL) := by omega
    simp [fileToBase64, hg, hnot, fileToBase64Miss]

/-- Witness for C7: a fresh path read at t=0 and re-requested at t=100ms
costs one read then zero reads and returns the same payload; an entry aged
beyond the TTL triggers a fresh read. -/
theorem C7_cache_read_once_witness :
    (fileToBase64 (fun _ => "X") (fun _ => "Y") (fun _ => ".jpg") id
        0 [] "a.jpg").reads = 1 ∧
    (fileToBase64 (fun _ => "X") (fun _ => "Y") (fun _ => ".jpg") id 100
        (fileToBase64 (fun _ => "X") (fun _ => "Y") (fun _ => ".jpg") id
          0 [] "a.jpg").cache "a.jpg").reads = 0 ∧
    (fileToBase64 (fun _ => "X") (fun _ => "Y") (fun _ => ".jpg") id 400000
        [("a.jpg", ⟨"stale", 0⟩)] "a.jpg").reads = 1 := by
  have h := C7_cache_read_once (fun _ => "X") (fun _ => "Y") (fun _ => ".jpg")
    id 0 100 [] "a.jpg" rfl (by decide)
  exact ⟨h.1, h.2.1, h.2.2.2 [("a.jpg", ⟨"stale", 0⟩)] ⟨"stale", 0⟩ 400000
    rfl (by decide)⟩

/-- C2 (code bug): `fileToBase64` runs `cleanCache()` BEFORE `set`, so
inserting an 11th distinct fresh path evicts nothing and leaves 11 cached
entries, exceeding CACHE_MAX_SIZE; the claimed evict-to-10 behaviour does
not happen on that call. -/
theorem C2_cache_overflow_eleven :
    ((["p1", "p2", "p3", "p4", "p5", "p6", "p7", "p8", "p9", "p10"].foldl
        (fun c q =>
          (fileToBase64 (fun _ => "B") (fun _ => "E") (fun _ => ".jpg") id
            0 c q).cache)
        []).length = 10) ∧
    ((["p1", "p2", "p3", "p4", "p5", "p6", "p7", "p8", "p9", "p10",
        "p11"].foldl
        (fun c q =>
          (fileToBase64 (fun _ => "B") (fun _ => "E") (fun _ => ".jpg") id
            0 c q).cache)
        []).length = 11) ∧
    CACHE_MAX_SIZE = 10 := by decide

/-- C8: the stream consumer returns the descriptor of the first
success frame immediately (independent of any later frames); a failure
frame arriving first yields null; DONE markers, unparseable JSON and
frames of other types are skipped without error; a stream ending with no
terminal frame yields null. -/
theorem C8_sse_consumption (sd : Bool) (dl : Except String (String × Nat))
    (url : String) (size msg : Option String)
    (others rest evs : List SSEEvent) (d : SSEData) (ls : List SSELine)
    (hothers : ∀ e ∈ others, e = SSEEvent.otherFrame) :
    (consumeEvents sd dl (others ++ SSEEvent.succeededFrame url size :: rest) =
      consumeEvents sd dl [SSEEvent.succeededFrame url size]) ∧
    (∀ img,
      consumeEvents sd dl (others ++ SSEEvent.succeededFrame url size :: rest) =
        some img → img.url = url ∧ img.size = size.getD "2K") ∧
    (consumeEvents sd dl
        (others ++ SSEEvent.succeededFrame url size :: rest)).isSome = true ∧
    consumeEvents sd dl (others ++ SSEEvent.failedFrame msg :: rest) = none ∧
    ((∀ e ∈ evs, e = SSEEvent.otherFrame) → consumeEvents sd dl evs = none) ∧
    ((d = SSEData.doneMarker ∨ d = SSEData.invalidJson ∨ d = SSEData.empty) →
      parseSSEStream (SSELine.dataLine d :: ls) = parseSSEStream ls) ∧
    parseSSEStream (SSELine.otherLine :: ls) = parseSSEStream ls := by
  have hterm : ∃ lp dt,
      consumeEvents sd dl (SSEEvent.succeededFrame url size :: rest) =
        some ⟨url, size.getD "2K", lp, dt⟩ := by
    cases sd with
    | false => exact ⟨none, none, rfl⟩
    | true =>
        cases dl with
        | ok pr =>
            obtain ⟨lp, dt⟩ := pr
            exact ⟨some lp, some dt, rfl⟩
        | error e => exact ⟨none, none, rfl⟩
  obtain ⟨lp, dt, hval⟩ := hterm
  refine ⟨?_, ?_, ?_, ?_, ?_, ?_, ?_⟩
  · rw [consumeEvents_skip sd dl others _ hothers]
    rfl
  · intro img h
    rw [consumeEvents_skip sd dl others _ hothers, hval] at h
    have h2 := Option.some.inj h
    rw [← h2]
    exact ⟨rfl, rfl⟩
  · rw [consumeEvents_skip sd dl others _ hothers, hval]
    rfl
  · rw [consumeEvents_skip sd dl others _ hothers]
    rfl
  · intro h
    rw [← List.append_nil evs, consumeEvents_skip sd dl evs [] h]
    rfl
  · rintro (rfl | rfl | rfl) <;> simp [parseSSEStream]
  · simp [parseSSEStream]

/-- Witness for C8 on a concrete stream. -/
theorem C8_sse_consumption_witness :
    consumeEvents true (Except.ok ("p", 3))
        ([SSEEvent.otherFrame] ++
          SSEEvent.succeededFrame "u" none :: [SSEEvent.failedFrame none]) =
      consumeEvents true (Except.ok ("p", 3))
        [SSEEvent.succeededFrame "u" none] ∧
    consumeEvents true (Except.ok ("p", 3))
        ([SSEEvent.otherFrame] ++ SSEEvent.failedFrame none :: []) = none ∧
    consumeEvents true (Except.ok ("p", 3)) [SSEEvent.otherFrame] = none ∧
    parseSSEStream [SSELine.dataLine SSEData.doneMarker] = parseSSEStream [] := by
  have h := C8_sse_consumption true (Except.ok ("p", 3)) "u" none none
    [SSEEvent.otherFrame] [SSEEvent.failedFrame none] [SSEEvent.otherFrame]
    SSEData.doneMarker [] (by decide)
  exact ⟨h.1, h.2.2.2.1, h.2.2.2.2.1 (by decide), h.2.2.2.2.2.1 (Or.inl rfl)⟩

/-- C9 counterexample: in the pipeline of `generateImages` a download
runs inside its unit's task, which occupies a generation-pool slot, so in
every reachable scheduler state at most MAX_PARALLEL_API_CALLS = 2
downloads are in flight — three (let alone the claimed four) concurrent
downloads are impossible, refuting the independent cap-4 download pool. -/
theorem C9_no_independent_download_pool :
    ¬ ∃ s : SchedState, SchedReach 15 s ∧ 3 ≤ countDownloading s := by
  rintro ⟨s, hs, h3⟩
  have h1 := schedReach_inFlight_le 15 s hs
  have h2 := countDownloading_le_inFlight s
  have hcap : MAX_PARALLEL_API_CALLS = 2 := rfl
  omega

/-- C9 (amended): each unit's download is awaited inside the unit's own
task, hence inside the generation pool: every reachable state of the
pipeline has at most MAX_PARALLEL_API_CALLS (2) tasks in flight and
therefore at most 2 downloads in flight; the cap-4 pool of
`downloadImagesParallel` is not used by `generateImages`. -/
theorem C9_downloads_inside_generation_slots (n : Nat) (s : SchedState)
    (h : SchedReach n s) :
    countDownloading s ≤ MAX_PARALLEL_API_CALLS ∧
    s.inFlight.length ≤ MAX_PARALLEL_API_CALLS ∧
    MAX_PARALLEL_API_CALLS = 2 ∧ MAX_PARALLEL_DOWNLOADS = 4 := by
  have h1 := schedReach_inFlight_le n s h
  exact ⟨le_trans (countDownloading_le_inFlight s) h1, h1, rfl, rfl⟩

/-- Witness for C9 (amended) at the initial state of a 4-unit run. -/
theorem C9_downloads_inside_generation_slots_witness :
    countDownloading (initSched 4) ≤ MAX_PARALLEL_API_CALLS ∧
    (initSched 4).inFlight.length ≤ MAX_PARALLEL_API_CALLS :=
  ⟨(C9_downloads_inside_generation_slots 4 (initSched 4)
      Relation.ReflTransGen.refl).1,
   (C9_downloads_inside_generation_slots 4 (initSched 4)
      Relation.ReflTransGen.refl).2.1⟩


/-- C1 (code bug): the claimed ordering of the returned images list is
unfulfillable — any request that issues at least one generation unit
never produces a GenerationResult at all, because the completed-promise
probe (seedream.ts lines 539-545) always answers "pending", `inProgress`
never shrinks and the pipeline loop never exits.  Evaluated at a 2-unit
request: no number of loop iterations yields a returned result. -/
theorem C1_no_result_to_order : ∀ fuel : Nat,
    generateImagesRun (some "key")
      { prompt := "a red bicycle", batchCount := some 2 } fuel 0 0 = none :=
  fun fuel =>
    generateImagesRun_diverges "key"
      { prompt := "a red bicycle", batchCount := some 2 } (by decide) fuel 0 0

/-- C4 (code bug): the claimed n−k-image success result is never
returned — a request issuing four generation units (whatever subset of
them would fail) leaves `generateImages` inside the pipeline loop
forever: the loop state never empties and no fuel produces a result. -/
theorem C4_no_partial_result_returned : ∀ fuel : Nat,
    runLoop fuel (List.range' 1 4) 0 = none ∧
    generateImagesRun (some "key")
      { prompt := "a red bicycle", batchCount := some 4 } fuel 0 0 = none :=
  fun fuel =>
    ⟨runLoop_diverges fuel (List.range' 1 4) 0 (Or.inl (by decide)),
     generateImagesRun_diverges "key"
       { prompt := "a red bicycle", batchCount := some 4 } (by decide) fuel 0 0⟩

/-- C5 (code bug): the unit level behaves as claimed — a unit whose
generation succeeds and whose download fails on every attempt still
produces its image with url set and localPath absent (seedream.ts lines
404-406) — but the claimed enclosing result does not exist: a request
issuing that one unit never returns a GenerationResult for any number of
loop iterations. -/
theorem C5_unit_survives_but_no_result :
    generateAndDownloadImage
        (Except.ok [SSELine.dataLine
          (SSEData.json (SSEEvent.succeededFrame "u" (some "4K")))])
        true (Except.error "timeout") =
      some ⟨"u", "4K", none, none⟩ ∧
    ∀ fuel : Nat,
      generateImagesRun (some "key")
        { prompt := "p", images := some ["http://r"], batchCount := some 1 }
        fuel 0 0 = none :=
  ⟨rfl,
   fun fuel =>
     generateImagesRun_diverges "key"
       { prompt := "p", images := some ["http://r"], batchCount := some 1 }
       (by decide) fuel 0 0⟩

/-- C10: every successful GenerationResult that `generateImages` ever
returns carries timing.download_ms = 0 (the literal at seedream.ts line
602, the only success-return site) — and any returning run issued no
generation unit at all, so its images list is empty and no pipelined
download exists outside the measured generation window. -/
theorem C10_returned_success_timing (apiKey : Option String)
    (options : GenerationOptions) (fuel g t : Nat) (r : GenerationResult)
    (hr : generateImagesRun apiKey options fuel g t = some r)
    (hs : r.success = true) :
    r.timing = some ⟨g, 0, t⟩ ∧ numCalls options = 0 ∧ r.images = [] := by
  cases apiKey with
  | none =>
      simp [generateImagesRun] at hr
      rw [← hr] at hs
      simp [missingKeyResult] at hs
  | some key =>
      by_cases hn : numCalls options = 0
      · simp [generateImagesRun, hn, runLoop_no_tasks] at hr
        subst hr
        refine ⟨by simp [aggregateResults], hn, ?_⟩
        simp [aggregateResults, sortImages, sortByKey]
      · have hd := generateImagesRun_diverges key options (by omega) fuel g t
        rw [hd] at hr
        exact Option.noConfusion hr

/-- Witness for C10: a unit-free run (batchCount 0) actually returns,
with success=true, download_ms = 0 and an empty images list. -/
theorem C10_returned_success_timing_witness :
    generateImagesRun (some "key") { prompt := "p", batchCount := some 0 }
        5 7 9 =
      some (aggregateResults [] 7 9) ∧
    (aggregateResults [] 7 9).success = true ∧
    (aggregateResults [] 7 9).timing = some ⟨7, 0, 9⟩ ∧
    (aggregateResults [] 7 9).images = [] := by
  have h := C10_returned_success_timing (some "key")
    { prompt := "p", batchCount := some 0 } 5 7 9 (aggregateResults [] 7 9)
    rfl rfl
  exact ⟨rfl, rfl, h.1, h.2.2⟩

end Seedream
